import Mathlib

/-
Verification development for the inventory dashboard in src/streamlit_app.py.

The embedding models the three database-facing functions of the file:
  * update_data (lines 140-186): turns the data-editor diff into SQL
    statements (UPDATE / INSERT / DELETE against table "inventory") and
    executes them on a sqlite connection with a single final commit;
  * load_data (lines 81-137): runs three SELECT queries and builds pandas
    DataFrames, repeatedly assigning the single variable df_entities and
    returning the names df_entities, df_transactions, df_users;
  * initialize_data (lines 32-78): issues CREATE TABLE statements for
    entities, transactions and users (modelled below as createdTables).

Python dicts are insertion-ordered association lists; pandas DataFrames are
a list of row dicts together with a list of integer index labels (iloc is
positional, loc is label based).  sqlite execution is modelled by a
connection state carrying the statements executed inside the current
uncommitted transaction, a flag recording whether a transaction was opened,
and the list of committed statements; a failure oracle on statements stands
for any runtime error raised by the database while executing a statement.
-/

/-- Scalar cell values: SQL NULL / Python None, integers and strings. -/
inductive Val where
  | null : Val
  | int : Int → Val
  | str : String → Val
  deriving DecidableEq

/-- Python dicts with string keys, as insertion-ordered association lists. -/
abbrev Dict := List (String × Val)

/-- Python dict lookup `d[k]` (first matching key). -/
def dictGet : Dict → String → Option Val
  | [], _ => none
  | (k', v) :: d, k => if k = k' then some v else dictGet d k

/-- Python dict assignment `d[k] = v`: overwrite in place, else append. -/
def dictSet : Dict → String → Val → Dict
  | [], k, v => [(k, v)]
  | (k', v') :: d, k, v => if k = k' then (k', v) :: d else (k', v') :: dictSet d k v

/-- Python `d.update(m)`: assign every key/value pair of `m` into `d`. -/
def dictUpdate (d m : Dict) : Dict :=
  m.foldl (fun acc kv => dictSet acc kv.1 kv.2) d

/-- A SQL statement as executed by update_data: an UPDATE, INSERT or DELETE
against a named table with the dict of bound named parameters. -/
inductive SqlOp where
  | update : String → Dict → SqlOp
  | insert : String → Dict → SqlOp
  | delete : String → Dict → SqlOp
  deriving DecidableEq

/-- Table a statement runs against. -/
def SqlOp.table : SqlOp → String
  | .update t _ => t
  | .insert t _ => t
  | .delete t _ => t

/-- Python exceptions that the modelled code can raise: IndexError from
`df.iloc` out of range, KeyError from `df.loc` on a missing label or column,
TypeError from `int(...)` on a non-integer, sqlite3.ProgrammingError for a
missing named-parameter binding, NameError for an unbound variable, and a
database error raised while executing a statement. -/
inductive PyErr where
  | indexError : PyErr
  | keyError : PyErr
  | typeError : PyErr
  | progError : String → PyErr
  | nameError : String → PyErr
  | dbError : SqlOp → PyErr
  deriving DecidableEq

/-- A pandas DataFrame: integer index labels plus the rows, in order.
DataFrames built by `pd.DataFrame(data, columns=...)` get the default
RangeIndex, i.e. `index = List.range rows.length`. -/
structure DataFrame where
  index : List Nat
  rows : List Dict
  deriving DecidableEq

/-- Positional row access `df.iloc[i]` (line 149). -/
def DataFrame.iloc (df : DataFrame) (i : Nat) : Option Dict :=
  df.rows[i]?

/-- Label-based row access `df.loc[lab]` (line 183): the row whose index
label equals `lab`. -/
def DataFrame.locRow (df : DataFrame) (lab : Nat) : Option Dict :=
  ((df.index.zip df.rows).find? (fun p => p.1 == lab)).map Prod.snd

/-- The three-collection diff produced by st.data_editor: `edited_rows`
maps snapshot row positions to partial column/value dicts, `added_rows` is
a list of new row dicts, `deleted_rows` a list of snapshot row positions. -/
structure Changes where
  edited_rows : List (Nat × Dict)
  added_rows : List Dict
  deleted_rows : List Nat
  deriving DecidableEq

/-- State of the sqlite connection: statements executed in the current
uncommitted transaction, whether a transaction is open, and the statements
committed so far. -/
structure ConnState where
  pending : List SqlOp
  began : Bool
  committedOps : List SqlOp
  deriving DecidableEq

/-- `conn.commit()` (line 186): the pending statements become durable and
the transaction closes.  On an idle connection this is a no-op. -/
def commit (c : ConnState) : ConnState :=
  ⟨[], false, c.committedOps ++ c.pending⟩

/-- `cursor.executemany(sql, params)`: bind and execute the statement once
per parameter set, in order.  Computing/binding a parameter set can raise
(the `Except.error` elements); executing a bound statement can fail (the
`fail` oracle).  The first failure aborts, leaving the statements already
executed in the open transaction. -/
def executemany (fail : SqlOp → Bool) (mk : Dict → SqlOp) :
    List (Except PyErr Dict) → ConnState → ConnState × Option PyErr
  | [], c => (c, none)
  | .error e :: _, c => (c, some e)
  | .ok d :: rest, c =>
    if fail (mk d) then (c, some (.dbError (mk d)))
    else executemany fail mk rest ⟨c.pending ++ [mk d], true, c.committedOps⟩

/-- Columns bound by the UPDATE statement of lines 153-167: the seven SET
parameters and the WHERE parameter `id`. -/
def updateCols : List String :=
  ["item_name", "price", "units_sold", "units_left", "cost_price",
   "reorder_point", "description", "id"]

/-- Columns bound by the INSERT statement of lines 170-178. -/
def insertCols : List String :=
  ["id", "item_name", "price", "units_sold", "units_left", "cost_price",
   "reorder_point", "description"]

/-- Binding of named parameters from a plain dict: every parameter name
must be a key of the dict, otherwise sqlite raises ProgrammingError. -/
def bindParams (d : Dict) : List String → Except PyErr Dict
  | [] => .ok []
  | n :: ns =>
    match dictGet d n with
    | none => .error (.progError n)
    | some v =>
      match bindParams d ns with
      | .error e => .error e
      | .ok ps => .ok ((n, v) :: ps)

/-- Binding through `defaultdict(lambda: None, row)` (line 177): every
parameter name resolves, with None for the keys the row does not supply;
keys of `row` that are not parameter names are ignored by the binding. -/
def withNullDefaults (r : Dict) : Dict :=
  insertCols.map (fun c => (c, (dictGet r c).getD Val.null))

/-- Loop of lines 148-151: for each position/delta pair, take the snapshot
row at that position with `df.iloc`, overlay the delta with `dict.update`,
and collect the resulting full rows. -/
def buildRows (df : DataFrame) : List (Nat × Dict) → Except PyErr (List Dict)
  | [] => .ok []
  | (i, delta) :: rest =>
    match df.iloc i with
    | none => .error .indexError
    | some r =>
      match buildRows df rest with
      | .error e => .error e
      | .ok rs => .ok (dictUpdate r delta :: rs)

/-- Parameter set for one deleted position (line 183):
`{'id': int(df.loc[i, 'id'])}` - label-based row lookup, then the `id`
column, converted with `int(...)`. -/
def deleteParam (df : DataFrame) (i : Nat) : Except PyErr Dict :=
  match df.locRow i with
  | none => .error .keyError
  | some r =>
    match dictGet r "id" with
    | none => .error .keyError
    | some (.int n) => .ok [("id", Val.int n)]
    | some _ => .error .typeError

/-- Lines 144-167: if `changes['edited_rows']` is non-empty, build the full
rows from `st.session_state.inventory_table['edited_rows']` (the `sess`
argument!) and run the UPDATE statement once per row. -/
def editedStep (fail : SqlOp → Bool) (df : DataFrame) (changes sess : Changes)
    (c : ConnState) : ConnState × Option PyErr :=
  if changes.edited_rows.isEmpty then (c, none)
  else
    match buildRows df sess.edited_rows with
    | .error e => (c, some e)
    | .ok rows =>
      executemany fail (SqlOp.update "inventory")
        (rows.map (fun r => bindParams r updateCols)) c

/-- Lines 169-178: if `changes['added_rows']` is non-empty, run the INSERT
statement once per added row, with None-defaulted bindings. -/
def addedStep (fail : SqlOp → Bool) (changes : Changes) (c : ConnState) :
    ConnState × Option PyErr :=
  if changes.added_rows.isEmpty then (c, none)
  else
    executemany fail (SqlOp.insert "inventory")
      (changes.added_rows.map (fun r => .ok (withNullDefaults r))) c

/-- Lines 180-184: if `changes['deleted_rows']` is non-empty, run the
DELETE statement once per deleted position; the parameter generator is
consumed lazily, interleaved with execution. -/
def deletedStep (fail : SqlOp → Bool) (df : DataFrame) (changes : Changes)
    (c : ConnState) : ConnState × Option PyErr :=
  if changes.deleted_rows.isEmpty then (c, none)
  else
    executemany fail (SqlOp.delete "inventory")
      (changes.deleted_rows.map (deleteParam df)) c

/-- update_data (lines 140-186): the three statement blocks in order, an
uncaught exception aborting the rest, and a single `conn.commit()` at the
end of the success path.  `df` is the snapshot DataFrame argument,
`changes` the diff argument, `sess` the ambient
`st.session_state.inventory_table` that line 145 reads. -/
def update_data (fail : SqlOp → Bool) (df : DataFrame) (changes sess : Changes)
    (c0 : ConnState) : ConnState × Option PyErr :=
  match editedStep fail df changes sess c0 with
  | (c1, some e) => (c1, some e)
  | (c1, none) =>
    match addedStep fail changes c1 with
    | (c2, some e) => (c2, some e)
    | (c2, none) =>
      match deletedStep fail df changes c2 with
      | (c3, some e) => (c3, some e)
      | (c3, none) => (commit c3, none)

/-- Sequencing of a list of fallible parameter computations: all results in
order, or the first error.  Used to state what a successful run executed. -/
def seqExcept : List (Except PyErr Dict) → Except PyErr (List Dict)
  | [] => .ok []
  | .error e :: _ => .error e
  | .ok d :: rest =>
    match seqExcept rest with
    | .error e => .error e
    | .ok ds => .ok (d :: ds)

/-- Tables and columns created by the CREATE TABLE statements of
initialize_data (lines 36-77). -/
def createdTables : List (String × List String) :=
  [("entities",
    ["entity_uuid", "entity_type", "mitam_id", "deliverying_vessel_name",
     "entity_inventory"]),
   ("transactions",
    ["transaction_id", "entity_uuid", "transaction_type",
     "transaction_location", "user_id"]),
   ("users",
    ["user_id", "last_name", "first_name", "email", "phone_number",
     "organization", "sponsor_first", "sponsor_last", "sponsor_email",
     "sponsor_phone", "user_type", "password_hash"])]

/-- Local Python variable environment of load_data: name to DataFrame. -/
abbrev Env := List (String × DataFrame)

/-- Reading a variable; an unbound name raises NameError at use site. -/
def envGet : Env → String → Option DataFrame
  | [], _ => none
  | (k', v) :: env, k => if k = k' then some v else envGet env k

/-- Assigning a variable (rebinding replaces the previous value). -/
def envSet : Env → String → DataFrame → Env
  | [], k, v => [(k, v)]
  | (k', v') :: env, k, v =>
    if k = k' then (k', v) :: env else (k', v') :: envSet env k v

/-- `pd.DataFrame(data, columns=cols)`: rows pair the column names with the
fetched tuples, and the index is the default RangeIndex. -/
def mkDF (cols : List String) (data : List (List Val)) : DataFrame :=
  ⟨List.range data.length, data.map (fun row => cols.zip row)⟩

/-- Column list of lines 92-98. -/
def entityCols : List String :=
  ["entity_uuid", "entity_type", "mitam_id", "deliverying_vessel_name",
   "entity_inventory"]

/-- Column list of lines 107-113. -/
def transactionCols : List String :=
  ["transaction_id", "entity_uuid", "transaction_type",
   "transaction_location", "user_id"]

/-- Column list of lines 122-135. -/
def userCols : List String :=
  ["user_id", "last_name", "first_name", "email", "phone_number",
   "organization", "sponsor_first", "sponsor_last", "sponsor_email",
   "sponsor_phone", "user_type", "password_hash"]

/-- load_data (lines 81-137).  `q` yields the fetchall result of the SELECT
on each table, or `none` when the query raises (each try/except then
returns Python None, modelled as `.ok none`).  Each of the three DataFrame
constructions is assigned to the single variable `df_entities` (lines 91,
106, 121); the return statement (line 137) evaluates the names
`df_entities`, `df_transactions`, `df_users` left to right, raising
NameError at the first unbound one. -/
def load_data (q : String → Option (List (List Val))) :
    Except PyErr (Option (DataFrame × DataFrame × DataFrame)) :=
  match q "entities" with
  | none => .ok none
  | some d1 =>
    let env1 := envSet [] "df_entities" (mkDF entityCols d1)
    match q "transactions" with
    | none => .ok none
    | some d2 =>
      let env2 := envSet env1 "df_entities" (mkDF transactionCols d2)
      match q "users" with
      | none => .ok none
      | some d3 =>
        let env3 := envSet env2 "df_entities" (mkDF userCols d3)
        match envGet env3 "df_entities" with
        | none => .error (.nameError "df_entities")
        | some a =>
          match envGet env3 "df_transactions" with
          | none => .error (.nameError "df_transactions")
          | some b =>
            match envGet env3 "df_users" with
            | none => .error (.nameError "df_users")
            | some c => .ok (some (a, b, c))

/-- Overlay claim (spec wording): applying the operations is all-or-nothing
with a full rollback, so a failed run leaves the connection exactly as it
started. -/
def specRollsBackOnFailure : Prop :=
  ∀ (fail : SqlOp → Bool) (df : DataFrame) (changes sess : Changes)
    (c0 : ConnState), c0.pending = [] →
    (update_data fail df changes sess c0).2.isSome →
    (update_data fail df changes sess c0).1 = c0

/-- Overlay claim (spec wording): the reconciler reads nothing from the
ambient session state, so the result is a function of the explicit
snapshot/diff arguments alone. -/
def specSessionStateFree : Prop :=
  ∀ (fail : SqlOp → Bool) (df : DataFrame) (changes sess sess' : Changes)
    (c0 : ConnState),
    update_data fail df changes sess c0 = update_data fail df changes sess' c0

/-- Overlay claim (spec wording): an added row with a column outside the
table's declared columns makes the run fail (SchemaError). -/
def specRejectsUnknownColumns : Prop :=
  ∀ (fail : SqlOp → Bool) (df : DataFrame) (changes sess : Changes)
    (c0 : ConnState) (r : Dict), r ∈ changes.added_rows →
    (∃ c, c ∈ r.map Prod.fst ∧ c ∉ insertCols) →
    (update_data fail df changes sess c0).2.isSome

/-! Basic facts about the dict operations. -/

lemma dictUpdate_cons (d : Dict) (kv : String × Val) (m : Dict) :
    dictUpdate d (kv :: m) = dictUpdate (dictSet d kv.1 kv.2) m := rfl

lemma dictGet_dictSet (d : Dict) (k : String) (v : Val) (c : String) :
    dictGet (dictSet d k v) c = if c = k then some v else dictGet d c := by
  induction d with
  | nil => simp [dictSet, dictGet]
  | cons hd tl ih =>
    obtain ⟨k', v'⟩ := hd
    by_cases hkk : k = k'
    · subst hkk
      simp only [dictSet, if_pos rfl, dictGet]
      by_cases hck : c = k <;> simp [hck]
    · simp only [dictSet, if_neg hkk, dictGet]
      by_cases hck : c = k' <;> by_cases hck2 : c = k <;>
        simp_all [dictGet]

lemma dictGet_dictUpdate_of_not_mem (m : Dict) :
    ∀ (d : Dict) (c : String), c ∉ m.map Prod.fst →
      dictGet (dictUpdate d m) c = dictGet d c := by
  induction m with
  | nil => intro d c _; rfl
  | cons hd tl ih =>
    intro d c h
    simp only [List.map_cons, List.mem_cons] at h
    push_neg at h
    rw [dictUpdate_cons, ih _ _ h.2, dictGet_dictSet, if_neg h.1]

lemma dictGet_dictUpdate_of_mem (m : Dict) :
    ∀ (d : Dict) (c : String), (m.map Prod.fst).Nodup → c ∈ m.map Prod.fst →
      dictGet (dictUpdate d m) c = dictGet m c := by
  induction m with
  | nil => intro d c _ h; simp at h
  | cons hd tl ih =>
    intro d c hnd h
    obtain ⟨k, v⟩ := hd
    rw [dictUpdate_cons]
    simp only [List.map_cons, List.nodup_cons] at hnd
    simp only [List.map_cons, List.mem_cons] at h
    by_cases hck : c = k
    · subst hck
      rw [dictGet_dictUpdate_of_not_mem tl _ _ hnd.1, dictGet_dictSet,
        if_pos rfl]
      simp [dictGet]
    · have hm : c ∈ tl.map Prod.fst := by
        rcases h with h | h
        · exact absurd h hck
        · exact h
      rw [ih _ _ hnd.2 hm]
      simp [dictGet, hck]

lemma dictGet_dictUpdate_isSome (m : Dict) :
    ∀ (d : Dict) (c : String), (dictGet d c).isSome →
      (dictGet (dictUpdate d m) c).isSome := by
  induction m with
  | nil => intro d c h; exact h
  | cons hd tl ih =>
    intro d c h
    rw [dictUpdate_cons]
    apply ih
    rw [dictGet_dictSet]
    by_cases hck : c = hd.1 <;> simp [hck, h]

/-! Facts about named-parameter binding. -/

lemma bindParams_ok_of_isSome (d : Dict) :
    ∀ (ns : List String), (∀ n ∈ ns, (dictGet d n).isSome) →
      ∃ ps, bindParams d ns = .ok ps := by
  intro ns
  induction ns with
  | nil => exact fun _ => ⟨[], rfl⟩
  | cons n ns ih =>
    intro h
    obtain ⟨v, hv⟩ := Option.isSome_iff_exists.mp (h n (by simp))
    obtain ⟨ps, hps⟩ := ih (fun x hx => h x (by simp [hx]))
    exact ⟨(n, v) :: ps, by simp [bindParams, hv, hps]⟩

lemma bindParams_get (d : Dict) :
    ∀ (ns : List String) (ps : Dict), ns.Nodup → bindParams d ns = .ok ps →
      ∀ c ∈ ns, dictGet ps c = dictGet d c := by
  intro ns
  induction ns with
  | nil => intro ps _ _ c hc; simp at hc
  | cons n ns ih =>
    intro ps hnd hok c hc
    simp only [bindParams] at hok
    rcases hv : dictGet d n with _ | v
    · rw [hv] at hok; cases hok
    · rw [hv] at hok
      rcases hrec : bindParams d ns with e | ps'
      · rw [hrec] at hok; cases hok
      · rw [hrec] at hok
        injection hok with hok
        subst hok
        simp only [List.nodup_cons] at hnd
        rcases List.mem_cons.mp hc with hcn | hcm
        · subst hcn
          simp [dictGet, hv]
        · have hcn : c ≠ n := fun h => hnd.1 (h ▸ hcm)
          simp only [dictGet, if_neg hcn]
          exact ih ps' hnd.2 hrec c hcm

lemma bindParams_keys (d : Dict) :
    ∀ (ns : List String) (ps : Dict), bindParams d ns = .ok ps →
      ps.map Prod.fst = ns := by
  intro ns
  induction ns with
  | nil => intro ps hok; cases hok; rfl
  | cons n ns ih =>
    intro ps hok
    simp only [bindParams] at hok
    rcases hv : dictGet d n with _ | v
    · rw [hv] at hok; cases hok
    · rw [hv] at hok
      rcases hrec : bindParams d ns with e | ps'
      · rw [hrec] at hok; cases hok
      · rw [hrec] at hok
        injection hok with hok
        subst hok
        simp [ih ps' hrec]

/-! Facts about sequencing fallible parameter computations. -/

lemma seqExcept_map_ok (ds : List Dict) : seqExcept (ds.map .ok) = .ok ds := by
  induction ds with
  | nil => rfl
  | cons d ds ih => simp [seqExcept, ih]

lemma seqExcept_eq_ok :
    ∀ (ps : List (Except PyErr Dict)) (ds : List Dict),
      seqExcept ps = .ok ds → ps = ds.map Except.ok := by
  intro ps
  induction ps with
  | nil => intro ds h; cases h; rfl
  | cons x rest ih =>
    intro ds h
    match x with
    | .error e => simp [seqExcept] at h
    | .ok d =>
      simp only [seqExcept] at h
      rcases hrec : seqExcept rest with e | ds'
      · rw [hrec] at h; cases h
      · rw [hrec] at h
        injection h with h
        subst h
        simp [ih ds' hrec]

/-! Facts about executemany. -/

section ExecMany

variable {fail : SqlOp → Bool} {mk : Dict → SqlOp}

lemma executemany_committedOps :
    ∀ (ps : List (Except PyErr Dict)) (c : ConnState),
      (executemany fail mk ps c).1.committedOps = c.committedOps := by
  intro ps
  induction ps with
  | nil => intro c; rfl
  | cons x rest ih =>
    intro c
    match x with
    | .error e => rfl
    | .ok d =>
      simp only [executemany]
      by_cases hf : fail (mk d)
      · simp [hf]
      · simp [hf, ih]

lemma executemany_ok_shape :
    ∀ (ps : List (Except PyErr Dict)) (c : ConnState),
      (executemany fail mk ps c).2 = none →
      ∃ ds : List Dict, ps = ds.map Except.ok ∧ (∀ d ∈ ds, fail (mk d) = false) ∧
        (executemany fail mk ps c).1 =
          ⟨c.pending ++ ds.map mk, c.began || !ds.isEmpty, c.committedOps⟩ := by
  intro ps
  induction ps with
  | nil =>
    intro c _
    exact ⟨[], rfl, by simp, by simp [executemany]⟩
  | cons x rest ih =>
    intro c h
    match x with
    | .error e => simp [executemany] at h
    | .ok d =>
      simp only [executemany] at h ⊢
      by_cases hf : fail (mk d)
      · simp [hf] at h
      · rw [if_neg hf] at h ⊢
        obtain ⟨ds', hds', hfall, hstate⟩ := ih _ h
        refine ⟨d :: ds', by simp [hds'], ?_, ?_⟩
        · intro x hx
          rcases List.mem_cons.mp hx with hx | hx
          · subst hx; exact Bool.not_eq_true _ |>.mp hf
          · exact hfall x hx
        · rw [hstate]
          simp [List.append_assoc]
  
lemma executemany_err_mem (hf : ∀ op, fail op = false) :
    ∀ (ps : List (Except PyErr Dict)) (c : ConnState) (e : PyErr),
      (executemany fail mk ps c).2 = some e → Except.error e ∈ ps := by
  intro ps
  induction ps with
  | nil => intro c e h; simp [executemany] at h
  | cons x rest ih =>
    intro c e h
    match x with
    | .error e' =>
      simp only [executemany] at h
      injection h with h
      subst h
      exact List.mem_cons_self _ _
    | .ok d =>
      simp only [executemany, hf (mk d)] at h
      simp only [Bool.false_eq_true, if_false] at h
      exact List.mem_cons_of_mem _ (ih _ e h)

lemma executemany_isSome_of_err (hf : ∀ op, fail op = false) :
    ∀ (ps : List (Except PyErr Dict)) (c : ConnState) (e : PyErr),
      Except.error e ∈ ps → (executemany fail mk ps c).2.isSome := by
  intro ps
  induction ps with
  | nil => intro c e h; simp at h
  | cons x rest ih =>
    intro c e h
    match x with
    | .error e' => simp [executemany]
    | .ok d =>
      simp only [executemany, hf (mk d)]
      simp only [Bool.false_eq_true, if_false]
      rcases List.mem_cons.mp h with h | h
      · cases h
      · exact ih _ e h

end ExecMany

/-! Facts about the row-building loop of the edited block. -/

lemma buildRows_err_eq (df : DataFrame) :
    ∀ (l : List (Nat × Dict)) (e : PyErr),
      buildRows df l = .error e → e = .indexError := by
  intro l
  induction l with
  | nil => intro e h; cases h
  | cons hd tl ih =>
    intro e h
    obtain ⟨i, delta⟩ := hd
    simp only [buildRows] at h
    rcases hr : df.iloc i with _ | r
    · rw [hr] at h; injection h with h; exact h.symm
    · rw [hr] at h
      rcases hrec : buildRows df tl with e' | rs
      · rw [hrec] at h; injection h with h; exact h ▸ ih e' hrec
      · rw [hrec] at h; cases h

lemma buildRows_err_of_bad (df : DataFrame) :
    ∀ (l : List (Nat × Dict)), (∃ pm ∈ l, df.iloc pm.1 = none) →
      ∃ e, buildRows df l = .error e := by
  intro l
  induction l with
  | nil => intro h; simp at h
  | cons hd tl ih =>
    intro h
    obtain ⟨i, delta⟩ := hd
    simp only [buildRows]
    rcases hr : df.iloc i with _ | r
    · exact ⟨.indexError, rfl⟩
    · obtain ⟨pm, hpm, hbad⟩ := h
      rcases List.mem_cons.mp hpm with hpm | hpm
      · subst hpm; simp only at hbad; rw [hbad] at hr; cases hr
      · obtain ⟨e, he⟩ := ih ⟨pm, hpm, hbad⟩
        exact ⟨e, by rw [he]⟩

lemma buildRows_get (df : DataFrame) :
    ∀ (l : List (Nat × Dict)) (rows : List Dict),
      buildRows df l = .ok rows →
      ∀ (k i : Nat) (delta : Dict), l[k]? = some (i, delta) →
        ∃ r, df.iloc i = some r ∧ rows[k]? = some (dictUpdate r delta) := by
  intro l
  induction l with
  | nil => intro rows _ k i delta hk; simp at hk
  | cons hd tl ih =>
    intro rows hok k i delta hk
    obtain ⟨i', delta'⟩ := hd
    simp only [buildRows] at hok
    rcases hr : df.iloc i' with _ | r
    · rw [hr] at hok; cases hok
    · rw [hr] at hok
      rcases hrec : buildRows df tl with e | rs
      · rw [hrec] at hok; cases hok
      · rw [hrec] at hok
        injection hok with hok
        subst hok
        match k with
        | 0 =>
          simp only [List.getElem?_cons_zero] at hk ⊢
          injection hk with hk
          obtain ⟨hi, hd⟩ := Prod.mk.injEq .. ▸ hk
          cases hi; cases hd
          exact ⟨r, hr, rfl⟩
        | k + 1 =>
          simp only [List.getElem?_cons_succ] at hk ⊢
          exact ih rs hrec k i delta hk

lemma buildRows_mem (df : DataFrame) :
    ∀ (l : List (Nat × Dict)) (rows : List Dict),
      buildRows df l = .ok rows →
      ∀ row ∈ rows, ∃ i delta r, (i, delta) ∈ l ∧ df.iloc i = some r ∧
        row = dictUpdate r delta := by
  intro l
  induction l with
  | nil =>
    intro rows hok row hrow
    cases hok
    simp at hrow
  | cons hd tl ih =>
    intro rows hok row hrow
    obtain ⟨i', delta'⟩ := hd
    simp only [buildRows] at hok
    rcases hr : df.iloc i' with _ | r
    · rw [hr] at hok; cases hok
    · rw [hr] at hok
      rcases hrec : buildRows df tl with e | rs
      · rw [hrec] at hok; cases hok
      · rw [hrec] at hok
        injection hok with hok
        subst hok
        rcases List.mem_cons.mp hrow with hrow | hrow
        · exact ⟨i', delta', r, List.mem_cons_self _ _, hr, hrow⟩
        · obtain ⟨i, delta, r0, hmem, hr0, hrow0⟩ := ih rs hrec row hrow
          exact ⟨i, delta, r0, List.mem_cons_of_mem _ hmem, hr0, hrow0⟩

lemma buildRows_length (df : DataFrame) :
    ∀ (l : List (Nat × Dict)) (rows : List Dict),
      buildRows df l = .ok rows → rows.length = l.length := by
  intro l
  induction l with
  | nil => intro rows hok; cases hok; rfl
  | cons hd tl ih =>
    intro rows hok
    obtain ⟨i', delta'⟩ := hd
    simp only [buildRows] at hok
    rcases hr : df.iloc i' with _ | r
    · rw [hr] at hok; cases hok
    · rw [hr] at hok
      rcases hrec : buildRows df tl with e | rs
      · rw [hrec] at hok; cases hok
      · rw [hrec] at hok
        injection hok with hok
        subst hok
        simp [ih rs hrec]

/-! Shape of each statement block of update_data on its success path. -/

lemma isEmpty_map {α β : Type} (f : α → β) (l : List α) :
    (l.map f).isEmpty = l.isEmpty := by
  cases l <;> rfl

lemma editedStep_ok_pair (fail : SqlOp → Bool) (df : DataFrame)
    (changes sess : Changes) (c : ConnState)
    (h : (editedStep fail df changes sess c).2 = none) :
    ∃ (rows uprms : List Dict),
      buildRows df
          (if changes.edited_rows.isEmpty then [] else sess.edited_rows)
        = .ok rows ∧
      seqExcept (rows.map (fun r => bindParams r updateCols)) = .ok uprms ∧
      editedStep fail df changes sess c =
        (⟨c.pending ++ uprms.map (SqlOp.update "inventory"),
          c.began || !uprms.isEmpty, c.committedOps⟩, none) := by
  by_cases hg : changes.edited_rows.isEmpty
  · refine ⟨[], [], by simp [hg, buildRows], rfl, ?_⟩
    simp [editedStep, hg]
  · simp only [editedStep, if_neg hg] at h ⊢
    rcases hb : buildRows df sess.edited_rows with e | rows
    · rw [hb] at h; simp at h
    · rw [hb] at h
      replace h : (executemany fail (SqlOp.update "inventory")
          (rows.map (fun r => bindParams r updateCols)) c).2 = none := h
      obtain ⟨ds, hds, _, hstate⟩ := executemany_ok_shape _ _ h
      refine ⟨rows, ds, rfl, by rw [hds, seqExcept_map_ok], ?_⟩
      exact Prod.ext hstate h

lemma addedStep_ok_pair (fail : SqlOp → Bool) (changes : Changes)
    (c : ConnState) (h : (addedStep fail changes c).2 = none) :
    addedStep fail changes c =
      (⟨c.pending ++ changes.added_rows.map
          (fun r => SqlOp.insert "inventory" (withNullDefaults r)),
        c.began || !changes.added_rows.isEmpty, c.committedOps⟩, none) := by
  by_cases hg : changes.added_rows.isEmpty
  · have hnil : changes.added_rows = [] := List.isEmpty_iff.mp hg
    simp [addedStep, hg, hnil]
  · simp only [addedStep, if_neg hg] at h ⊢
    obtain ⟨ds, hds, _, hstate⟩ := executemany_ok_shape _ _ h
    have hinj : Function.Injective (Except.ok : Dict → Except PyErr Dict) :=
      fun a b hab => by injection hab
    have hmm : (changes.added_rows.map withNullDefaults).map
          (Except.ok : Dict → Except PyErr Dict)
        = ds.map (Except.ok : Dict → Except PyErr Dict) := by
      rw [← hds, List.map_map]; rfl
    have hds' : changes.added_rows.map withNullDefaults = ds :=
      List.map_injective_iff.mpr hinj hmm
    rw [← hds'] at hstate
    rw [List.map_map, isEmpty_map] at hstate
    refine Prod.ext ?_ h
    rw [hstate]; rfl

lemma deletedStep_ok_pair (fail : SqlOp → Bool) (df : DataFrame)
    (changes : Changes) (c : ConnState)
    (h : (deletedStep fail df changes c).2 = none) :
    ∃ dprms : List Dict,
      seqExcept (changes.deleted_rows.map (deleteParam df)) = .ok dprms ∧
      deletedStep fail df changes c =
        (⟨c.pending ++ dprms.map (SqlOp.delete "inventory"),
          c.began || !dprms.isEmpty, c.committedOps⟩, none) := by
  by_cases hg : changes.deleted_rows.isEmpty
  · have hnil : changes.deleted_rows = [] := List.isEmpty_iff.mp hg
    exact ⟨[], by simp [hnil, seqExcept], by simp [deletedStep, hg]⟩
  · simp only [deletedStep, if_neg hg] at h ⊢
    obtain ⟨ds, hds, _, hstate⟩ := executemany_ok_shape _ _ h
    exact ⟨ds, by rw [hds, seqExcept_map_ok], Prod.ext hstate h⟩

lemma editedStep_committedOps (fail : SqlOp → Bool) (df : DataFrame)
    (changes sess : Changes) (c : ConnState) :
    (editedStep fail df changes sess c).1.committedOps = c.committedOps := by
  by_cases hg : changes.edited_rows.isEmpty
  · simp [editedStep, hg]
  · simp only [editedStep, if_neg hg]
    rcases hb : buildRows df sess.edited_rows with e | rows
    · rfl
    · exact executemany_committedOps _ _

lemma addedStep_committedOps (fail : SqlOp → Bool) (changes : Changes)
    (c : ConnState) :
    (addedStep fail changes c).1.committedOps = c.committedOps := by
  by_cases hg : changes.added_rows.isEmpty
  · simp [addedStep, hg]
  · simp only [addedStep, if_neg hg]
    exact executemany_committedOps _ _

lemma deletedStep_committedOps (fail : SqlOp → Bool) (df : DataFrame)
    (changes : Changes) (c : ConnState) :
    (deletedStep fail df changes c).1.committedOps = c.committedOps := by
  by_cases hg : changes.deleted_rows.isEmpty
  · simp [deletedStep, hg]
  · simp only [deletedStep, if_neg hg]
    exact executemany_committedOps _ _

/-- What a successful run of update_data committed: each edited row built by
overlaying its delta on the snapshot row and bound to the UPDATE parameters,
then each added row with null defaults bound to the INSERT parameters, then
each deleted position resolved to its DELETE parameter - in that order,
committed on top of what was already durable, with the transaction closed. -/
lemma update_data_ok_shape (fail : SqlOp → Bool) (df : DataFrame)
    (changes sess : Changes) (c0 : ConnState) (hp : c0.pending = [])
    (h : (update_data fail df changes sess c0).2 = none) :
    ∃ (rows uprms dprms : List Dict),
      buildRows df
          (if changes.edited_rows.isEmpty then [] else sess.edited_rows)
        = .ok rows ∧
      seqExcept (rows.map (fun r => bindParams r updateCols)) = .ok uprms ∧
      seqExcept (changes.deleted_rows.map (deleteParam df)) = .ok dprms ∧
      (update_data fail df changes sess c0).1 =
        ⟨[], false,
          c0.committedOps ++
            (uprms.map (SqlOp.update "inventory") ++
             changes.added_rows.map
               (fun r => SqlOp.insert "inventory" (withNullDefaults r)) ++
             dprms.map (SqlOp.delete "inventory"))⟩ := by
  rcases hE : editedStep fail df changes sess c0 with ⟨c1, o1⟩
  cases o1 with
  | some e =>
    have hU : update_data fail df changes sess c0 = (c1, some e) := by
      simp only [update_data, hE]
    rw [hU] at h; simp at h
  | none =>
    rcases hA : addedStep fail changes c1 with ⟨c2, o2⟩
    cases o2 with
    | some e =>
      have hU : update_data fail df changes sess c0 = (c2, some e) := by
        simp only [update_data, hE, hA]
      rw [hU] at h; simp at h
    | none =>
      rcases hD : deletedStep fail df changes c2 with ⟨c3, o3⟩
      cases o3 with
      | some e =>
        have hU : update_data fail df changes sess c0 = (c3, some e) := by
          simp only [update_data, hE, hA, hD]
        rw [hU] at h; simp at h
      | none =>
        have hU : update_data fail df changes sess c0 = (commit c3, none) := by
          simp only [update_data, hE, hA, hD]
        obtain ⟨rows, uprms, hbuild, hseqU, hEeq⟩ :=
          editedStep_ok_pair fail df changes sess c0 (by rw [hE])
        rw [hE] at hEeq
        injection hEeq with hc1 _
        obtain ⟨dprms, hseqD, hDeq⟩ :=
          deletedStep_ok_pair fail df changes c2 (by rw [hD])
        have hAeq := addedStep_ok_pair fail changes c1 (by rw [hA])
        rw [hA] at hAeq
        injection hAeq with hc2 _
        rw [hD] at hDeq
        injection hDeq with hc3 _
        refine ⟨rows, uprms, dprms, hbuild, hseqU, hseqD, ?_⟩
        rw [hU]
        subst hc1 hc2 hc3
        simp [commit, hp, List.append_assoc]

/-- A failed run of update_data never reaches the final commit, so the
durable statements are exactly what they were before the call. -/
lemma update_data_err_committedOps (fail : SqlOp → Bool) (df : DataFrame)
    (changes sess : Changes) (c0 : ConnState)
    (h : (update_data fail df changes sess c0).2.isSome) :
    (update_data fail df changes sess c0).1.committedOps = c0.committedOps := by
  rcases hE : editedStep fail df changes sess c0 with ⟨c1, o1⟩
  have hK1 : c1.committedOps = c0.committedOps := by
    have := editedStep_committedOps fail df changes sess c0
    rw [hE] at this; exact this
  cases o1 with
  | some e =>
    have hU : update_data fail df changes sess c0 = (c1, some e) := by
      simp only [update_data, hE]
    rw [hU]; exact hK1
  | none =>
    rcases hA : addedStep fail changes c1 with ⟨c2, o2⟩
    have hK2 : c2.committedOps = c1.committedOps := by
      have := addedStep_committedOps fail changes c1
      rw [hA] at this; exact this
    cases o2 with
    | some e =>
      have hU : update_data fail df changes sess c0 = (c2, some e) := by
        simp only [update_data, hE, hA]
      rw [hU]; exact hK2.trans hK1
    | none =>
      rcases hD : deletedStep fail df changes c2 with ⟨c3, o3⟩
      have hK3 : c3.committedOps = c2.committedOps := by
        have := deletedStep_committedOps fail df changes c2
        rw [hD] at this; exact this
      cases o3 with
      | some e =>
        have hU : update_data fail df changes sess c0 = (c3, some e) := by
          simp only [update_data, hE, hA, hD]
        rw [hU]; exact (hK3.trans hK2).trans hK1
      | none =>
        have hU : update_data fail df changes sess c0 = (commit c3, none) := by
          simp only [update_data, hE, hA, hD]
        rw [hU] at h; simp at h

/-! Label-based lookup on the default RangeIndex coincides with positional
lookup, which is what makes the deleted positions act as positions. -/

lemma find_zip_range' :
    ∀ (rows : List Dict) (k q : Nat),
      (((List.range' k rows.length).zip rows).find?
          (fun p => p.1 == q)).map Prod.snd
        = if q < k then none else rows[q - k]? := by
  intro rows
  induction rows with
  | nil =>
    intro k q
    simp
  | cons r rs ih =>
    intro k q
    have hlen : (r :: rs).length = rs.length + 1 := rfl
    rw [hlen, List.range'_succ, List.zip_cons_cons]
    by_cases hkq : k = q
    · subst hkq
      simp [List.find?]
    · have hbeq : (k == q) = false := beq_eq_false_iff_ne.mpr hkq
      simp only [List.find?, hbeq]
      rw [ih (k + 1) q]
      by_cases h1 : q < k
      · rw [if_pos (by omega : q < k + 1), if_pos h1]
      · rw [if_neg h1]
        by_cases h2 : q < k + 1
        · exfalso; omega
        · rw [if_neg h2]
          have hq : q - k = (q - (k + 1)) + 1 := by omega
          rw [hq, List.getElem?_cons_succ]

lemma locRow_default (df : DataFrame)
    (hidx : df.index = List.range df.rows.length) (q : Nat) :
    df.locRow q = df.rows[q]? := by
  unfold DataFrame.locRow
  rw [hidx, List.range_eq_range' df.rows.length, find_zip_range']
  simp

/-! Well-formedness of a snapshot of the inventory table: every row binds
all UPDATE parameters and carries an integer primary key. -/

/-- Test that a row's `id` value is an integer (so `int(...)` succeeds). -/
def idIsInt (r : Dict) : Bool :=
  match dictGet r "id" with
  | some (.int _) => true
  | _ => false

/-- Test that a row has every column the UPDATE statement binds. -/
def rowBindable (r : Dict) : Bool :=
  updateCols.all (fun c => (dictGet r c).isSome)

/-- A snapshot DataFrame whose rows all carry the eight inventory columns
with an integer `id`, as produced by a SELECT on the inventory table. -/
abbrev wellFormed (df : DataFrame) : Prop :=
  ∀ r ∈ df.rows, rowBindable r = true ∧ idIsInt r = true

lemma deleteParam_of_bad (df : DataFrame)
    (hidx : df.index = List.range df.rows.length) (q : Nat)
    (hq : df.rows[q]? = none) : deleteParam df q = .error .keyError := by
  unfold deleteParam
  rw [locRow_default df hidx, hq]

lemma deleteParam_err (df : DataFrame)
    (hidx : df.index = List.range df.rows.length)
    (hwf : wellFormed df) (q : Nat) (e : PyErr)
    (h : deleteParam df q = .error e) : e = .keyError := by
  unfold deleteParam at h
  rw [locRow_default df hidx] at h
  rcases hr : df.rows[q]? with _ | r
  · rw [hr] at h
    injection h with h
    exact h.symm
  · rw [hr] at h
    replace h : (match dictGet r "id" with
        | none => Except.error PyErr.keyError
        | some (Val.int n) => Except.ok [("id", Val.int n)]
        | some _ => Except.error PyErr.typeError) = Except.error e := h
    have hid := (hwf r (List.getElem?_mem hr)).2
    unfold idIsInt at hid
    rcases hg : dictGet r "id" with _ | v
    · rw [hg] at hid; cases hid
    · rw [hg] at h hid
      rcases v with _ | n | s
      · cases hid
      · cases h
      · cases hid

lemma deleteParam_ok (df : DataFrame)
    (hidx : df.index = List.range df.rows.length) (q : Nat) (d : Dict)
    (h : deleteParam df q = .ok d) :
    ∃ r n, df.rows[q]? = some r ∧ dictGet r "id" = some (.int n) ∧
      d = [("id", Val.int n)] := by
  unfold deleteParam at h
  rw [locRow_default df hidx] at h
  rcases hr : df.rows[q]? with _ | r
  · rw [hr] at h; cases h
  · rw [hr] at h
    replace h : (match dictGet r "id" with
        | none => Except.error PyErr.keyError
        | some (Val.int n) => Except.ok [("id", Val.int n)]
        | some _ => Except.error PyErr.typeError) = Except.ok d := h
    rcases hg : dictGet r "id" with _ | v
    · rw [hg] at h; cases h
    · rw [hg] at h
      rcases v with _ | n | s
      · cases h
      · injection h with h
        exact ⟨r, n, rfl, hg, h.symm⟩
      · cases h

/-! Classification of the exceptions a run of update_data can raise when
the database itself never fails and the snapshot is well formed: only the
row-resolution lookups can raise. -/

lemma editedStep_err_classify (fail : SqlOp → Bool) (df : DataFrame)
    (changes sess : Changes) (c : ConnState)
    (hf : ∀ op, fail op = false) (hwf : wellFormed df) (e : PyErr)
    (h : (editedStep fail df changes sess c).2 = some e) : e = .indexError := by
  by_cases hg : changes.edited_rows.isEmpty
  · simp [editedStep, hg] at h
  · simp only [editedStep, if_neg hg] at h
    rcases hb : buildRows df sess.edited_rows with e' | rows
    · rw [hb] at h
      simp at h
      exact h ▸ buildRows_err_eq df sess.edited_rows e' hb
    · rw [hb] at h
      exfalso
      replace h : (executemany fail (SqlOp.update "inventory")
          (rows.map (fun r => bindParams r updateCols)) c).2 = some e := h
      have hmem := executemany_err_mem hf _ c e h
      rw [List.mem_map] at hmem
      obtain ⟨row, hrow, hbind⟩ := hmem
      obtain ⟨i, delta, r0, _, hr0, hroweq⟩ :=
        buildRows_mem df sess.edited_rows rows hb row hrow
      unfold DataFrame.iloc at hr0
      have hbindable : ∀ n ∈ updateCols, (dictGet row n).isSome := by
        intro n hn
        subst hroweq
        apply dictGet_dictUpdate_isSome
        have hall := (hwf r0 (List.getElem?_mem hr0)).1
        unfold rowBindable at hall
        rw [List.all_eq_true] at hall
        exact hall n hn
      obtain ⟨ps, hps⟩ := bindParams_ok_of_isSome row updateCols hbindable
      rw [hps] at hbind
      cases hbind

lemma addedStep_err_none (fail : SqlOp → Bool) (changes : Changes)
    (c : ConnState) (hf : ∀ op, fail op = false) (e : PyErr)
    (h : (addedStep fail changes c).2 = some e) : False := by
  by_cases hg : changes.added_rows.isEmpty
  · simp [addedStep, hg] at h
  · simp only [addedStep, if_neg hg] at h
    have hmem := executemany_err_mem hf _ c e h
    rw [List.mem_map] at hmem
    obtain ⟨row, _, habs⟩ := hmem
    cases habs

lemma deletedStep_err_classify (fail : SqlOp → Bool) (df : DataFrame)
    (changes : Changes) (c : ConnState)
    (hf : ∀ op, fail op = false)
    (hidx : df.index = List.range df.rows.length)
    (hwf : wellFormed df) (e : PyErr)
    (h : (deletedStep fail df changes c).2 = some e) : e = .keyError := by
  by_cases hg : changes.deleted_rows.isEmpty
  · simp [deletedStep, hg] at h
  · simp only [deletedStep, if_neg hg] at h
    have hmem := executemany_err_mem hf _ c e h
    rw [List.mem_map] at hmem
    obtain ⟨q, _, hq⟩ := hmem
    exact deleteParam_err df hidx hwf q e hq

lemma update_data_err_classify (fail : SqlOp → Bool) (df : DataFrame)
    (changes sess : Changes) (c0 : ConnState)
    (hf : ∀ op, fail op = false)
    (hidx : df.index = List.range df.rows.length)
    (hwf : wellFormed df) (e : PyErr)
    (h : (update_data fail df changes sess c0).2 = some e) :
    e = .indexError ∨ e = .keyError := by
  rcases hE : editedStep fail df changes sess c0 with ⟨c1, o1⟩
  cases o1 with
  | some e1 =>
    have h2 : (editedStep fail df changes sess c0).2 = some e1 := by rw [hE]
    have hU : update_data fail df changes sess c0 = (c1, some e1) := by
      simp only [update_data, hE]
    rw [hU] at h
    simp only at h
    injection h with h
    exact Or.inl (h ▸ editedStep_err_classify fail df changes sess c0 hf hwf e1 h2)
  | none =>
    rcases hA : addedStep fail changes c1 with ⟨c2, o2⟩
    cases o2 with
    | some e2 =>
      have h2 : (addedStep fail changes c1).2 = some e2 := by rw [hA]
      exact absurd h2 (fun hh => addedStep_err_none fail changes c1 hf e2 hh)
    | none =>
      rcases hD : deletedStep fail df changes c2 with ⟨c3, o3⟩
      cases o3 with
      | some e3 =>
        have h2 : (deletedStep fail df changes c2).2 = some e3 := by rw [hD]
        have hU : update_data fail df changes sess c0 = (c3, some e3) := by
          simp only [update_data, hE, hA, hD]
        rw [hU] at h
        simp only at h
        injection h with h
        exact Or.inr
          (h ▸ deletedStep_err_classify fail df changes c2 hf hidx hwf e3 h2)
      | none =>
        have hU : update_data fail df changes sess c0 = (commit c3, none) := by
          simp only [update_data, hE, hA, hD]
        rw [hU] at h
        cases h

/-! Concrete sample data for evaluating the model on closed inputs. -/

/-- Full inventory row with id 1, as a SELECT on the table would return. -/
def sampleRow : Dict :=
  [("id", Val.int 1), ("item_name", Val.str "w"), ("price", Val.int 5),
   ("units_sold", Val.int 0), ("units_left", Val.int 5),
   ("cost_price", Val.int 3), ("reorder_point", Val.int 2),
   ("description", Val.str "d")]

/-- Full inventory row with id 2. -/
def sampleRow2 : Dict :=
  [("id", Val.int 2), ("item_name", Val.str "x"), ("price", Val.int 7),
   ("units_sold", Val.int 1), ("units_left", Val.int 9),
   ("cost_price", Val.int 4), ("reorder_point", Val.int 3),
   ("description", Val.str "e")]

/-- One-row snapshot with the default RangeIndex. -/
def sampleDF : DataFrame := ⟨[0], [sampleRow]⟩

/-- Two-row snapshot with the default RangeIndex. -/
def sampleDF2 : DataFrame := ⟨[0, 1], [sampleRow, sampleRow2]⟩

/-- Fresh connection: no open transaction, nothing pending or committed. -/
def cleanConn : ConnState := ⟨[], false, []⟩

/-- Database oracle under which no statement ever fails. -/
def noFail : SqlOp → Bool := fun _ => false

/-- Database oracle under which every INSERT fails (e.g. a primary-key
conflict) while UPDATE and DELETE succeed. -/
def insertFails : SqlOp → Bool := fun op =>
  match op with
  | .insert _ _ => true
  | _ => false

/-- Diff editing units_left of the row at position 0 to 1. -/
def editChanges : Changes := ⟨[(0, [("units_left", Val.int 1)])], [], []⟩

/-- Diff deleting the row at position 1. -/
def delChanges : Changes := ⟨[], [], [1]⟩

/-- Diff with one edit and one added row. -/
def mixedChanges : Changes :=
  ⟨[(0, [("units_left", Val.int 1)])], [[("id", Val.int 9)]], []⟩

/-- Diff whose added row carries a column outside the inventory schema. -/
def bogusChanges : Changes :=
  ⟨[], [[("id", Val.int 1), ("bogus", Val.int 7)]], []⟩

/-- Diff referencing edited position 5, stale for a one-row snapshot. -/
def staleChanges : Changes := ⟨[(5, [("units_left", Val.int 1)])], [], []⟩

/-- Session table with the same edited deltas as editChanges but different
added/deleted collections. -/
def sessX : Changes :=
  ⟨[(0, [("units_left", Val.int 1)])], [[("id", Val.int 9)]], [7]⟩

/-- Session table editing units_left to 4 instead of 1. -/
def sessB : Changes := ⟨[(0, [("units_left", Val.int 4)])], [], []⟩

/-- The empty diff. -/
def emptyChanges : Changes := ⟨[], [], []⟩

/-- Diff with all three collections non-empty. -/
def allChanges : Changes :=
  ⟨[(0, [("units_left", Val.int 1)])], [[("id", Val.int 9)]], [1]⟩

lemma ite_isEmpty {α : Type} (l : List α) :
    (if l.isEmpty then ([] : List α) else l) = l := by
  cases l <;> simp

/-! Claim C3. -/

/-- C3 counterexample: the claim that a failed run leaves the connection
exactly as it started (full rollback, no side effects before the separate
transactional step) is false: update_data executes statements as it goes
and never rolls back, so a failing INSERT leaves the already-executed
UPDATE pending on the connection. -/
theorem atomic_rollback_refuted : ¬ specRollsBackOnFailure := by
  intro h
  have h2 := h insertFails sampleDF mixedChanges mixedChanges cleanConn rfl
    (by decide)
  exact absurd h2 (by decide)

/-- C3 amended: the committed store is all-or-nothing only because the
single conn.commit() comes last - a failed run commits nothing (but the
executed statements stay pending; no rollback is ever issued). -/
theorem commit_unchanged_on_error (fail : SqlOp → Bool) (df : DataFrame)
    (changes sess : Changes) (c0 : ConnState)
    (h : (update_data fail df changes sess c0).2.isSome) :
    (update_data fail df changes sess c0).1.committedOps = c0.committedOps :=
  update_data_err_committedOps fail df changes sess c0 h

/-- C3 amended witness: the concrete failing run from the counterexample
commits nothing. -/
theorem commit_unchanged_on_error_case :
    (update_data insertFails sampleDF mixedChanges mixedChanges
      cleanConn).1.committedOps = cleanConn.committedOps :=
  commit_unchanged_on_error insertFails sampleDF mixedChanges mixedChanges
    cleanConn (by decide)

/-! Claim C5. -/

/-- C5 counterexample: an added row with a column (`bogus`) outside the
table's declared columns does not make update_data fail - the unknown
column is silently ignored by the named-parameter binding. -/
theorem unknown_columns_refuted : ¬ specRejectsUnknownColumns := by
  intro h
  have h2 := h noFail sampleDF bogusChanges bogusChanges cleanConn
    [("id", Val.int 1), ("bogus", Val.int 7)] (by decide)
    ⟨"bogus", by decide, by decide⟩
  exact absurd h2 (by decide)

/-- C5 amended: added rows are not schema-checked; the INSERT binds exactly
the eight declared columns (missing ones as null), ignoring unknown
columns, and a successful run commits those INSERTs between the UPDATEs
and the DELETEs. -/
theorem unknown_columns_ignored (fail : SqlOp → Bool) (df : DataFrame)
    (changes : Changes) (c0 : ConnState) (hp : c0.pending = [])
    (hok : (update_data fail df changes changes c0).2 = none) :
    (∀ r, (withNullDefaults r).map Prod.fst = insertCols) ∧
    ∃ uprmops dprmops : List SqlOp,
      (update_data fail df changes changes c0).1.committedOps
        = c0.committedOps ++ uprmops
          ++ changes.added_rows.map
              (fun r => SqlOp.insert "inventory" (withNullDefaults r))
          ++ dprmops := by
  constructor
  · intro r
    rfl
  · obtain ⟨rows, uprms, dprms, _, _, _, hstate⟩ :=
      update_data_ok_shape fail df changes changes c0 hp hok
    refine ⟨uprms.map (SqlOp.update "inventory"),
      dprms.map (SqlOp.delete "inventory"), ?_⟩
    rw [hstate]
    simp [List.append_assoc]

/-- C5 amended witness: the run with the bogus column succeeds and commits
its INSERT with the eight declared columns only. -/
theorem unknown_columns_ignored_case :
    (∀ r, (withNullDefaults r).map Prod.fst = insertCols) ∧
    ∃ uprmops dprmops : List SqlOp,
      (update_data noFail sampleDF bogusChanges bogusChanges
        cleanConn).1.committedOps
        = cleanConn.committedOps ++ uprmops
          ++ bogusChanges.added_rows.map
              (fun r => SqlOp.insert "inventory" (withNullDefaults r))
          ++ dprmops :=
  unknown_columns_ignored noFail sampleDF bogusChanges cleanConn rfl (by decide)

/-! Claim C7. -/

/-- C7: the empty diff executes no statement, opens no transaction, and
leaves the connection exactly as it was (the final conn.commit() is a
no-op on an idle connection). -/
theorem empty_diff_no_ops (fail : SqlOp → Bool) (df : DataFrame)
    (changes sess : Changes) (c0 : ConnState)
    (he : changes.edited_rows = []) (ha : changes.added_rows = [])
    (hd : changes.deleted_rows = [])
    (hp : c0.pending = []) (hb : c0.began = false) :
    update_data fail df changes sess c0 = (c0, none) := by
  have hU : update_data fail df changes sess c0 = (commit c0, none) := by
    simp [update_data, editedStep, addedStep, deletedStep, he, ha, hd]
  have hc : (⟨[], false, c0.committedOps⟩ : ConnState) = c0 := by
    rw [← hp, ← hb]
  rw [hU]
  unfold commit
  rw [hp, List.append_nil, hc]

/-- C7 witness: the empty diff on the sample snapshot and a fresh
connection returns the connection unchanged. -/
theorem empty_diff_no_ops_case :
    update_data noFail sampleDF emptyChanges emptyChanges cleanConn
      = (cleanConn, none) :=
  empty_diff_no_ops noFail sampleDF emptyChanges emptyChanges cleanConn
    rfl rfl rfl rfl rfl

/-! Claim C8. -/

/-- C8 counterexample: the result of update_data is not determined by its
explicit (snapshot, diff) arguments alone - line 145 reads the edited
deltas from the ambient session state, so two invocations with identical
arguments but different session state produce different statements. -/
theorem session_free_refuted : ¬ specSessionStateFree := by
  intro h
  have h2 := h noFail sampleDF editChanges editChanges sessB cleanConn
  exact absurd h2 (by decide)

/-- C8 amended: the result is determined by the explicit arguments plus
the session table's edited_rows - the only piece of ambient state read. -/
theorem session_edited_determines (fail : SqlOp → Bool) (df : DataFrame)
    (changes sess sess' : Changes) (c0 : ConnState)
    (h : sess.edited_rows = sess'.edited_rows) :
    update_data fail df changes sess c0
      = update_data fail df changes sess' c0 := by
  unfold update_data editedStep
  rw [h]

/-- C8 amended witness: two session tables agreeing on edited_rows but
differing elsewhere give identical runs. -/
theorem session_edited_determines_case :
    update_data noFail sampleDF editChanges editChanges cleanConn
      = update_data noFail sampleDF editChanges sessX cleanConn :=
  session_edited_determines noFail sampleDF editChanges editChanges sessX
    cleanConn rfl

/-! Claim C10. -/

/-- C10: whenever all three SELECT queries succeed, load_data raises
NameError on the unbound name df_transactions at its return statement
(df_entities was merely reassigned three times), and the advertised
(entities, transactions, users) triple is never produced for any query
oracle. -/
theorem load_data_name_error (q : String → Option (List (List Val))) :
    (∀ d1 d2 d3, q "entities" = some d1 → q "transactions" = some d2 →
      q "users" = some d3 →
      load_data q = .error (.nameError "df_transactions")) ∧
    ∀ t, load_data q ≠ .ok (some t) := by
  constructor
  · intro d1 d2 d3 h1 h2 h3
    unfold load_data
    rw [h1, h2, h3]
    simp [envSet, envGet]
  · intro t hcontra
    unfold load_data at hcontra
    rcases h1 : q "entities" with _ | d1 <;> rw [h1] at hcontra
    · simp at hcontra
    · rcases h2 : q "transactions" with _ | d2 <;> rw [h2] at hcontra
      · simp at hcontra
      · rcases h3 : q "users" with _ | d3 <;> rw [h3] at hcontra
        · simp at hcontra
        · simp [envSet, envGet] at hcontra

/-- C10 witness: with three successful empty query results, load_data
raises NameError 'df_transactions'. -/
theorem load_data_name_error_case :
    load_data (fun _ => some []) = .error (.nameError "df_transactions") :=
  (load_data_name_error (fun _ => some [])).1 [] [] [] rfl rfl rfl

/-! Claim C1. -/

/-- C1: for an edited entry (position p, partial mapping m) at slot k of
the diff, a successful run looks up the snapshot row at position p,
overlays m onto it, and commits as k-th statement an UPDATE keyed by that
row's id and carrying the full resulting row: every bound column mentioned
in m has its new value and every other bound column keeps its snapshot
value. -/
theorem edited_overlay_update (fail : SqlOp → Bool) (df : DataFrame)
    (changes : Changes) (c0 : ConnState) (k p : Nat) (m : Dict)
    (hp : c0.pending = [])
    (hok : (update_data fail df changes changes c0).2 = none)
    (hk : changes.edited_rows[k]? = some (p, m))
    (hm : (m.map Prod.fst).Nodup)
    (hid : "id" ∉ m.map Prod.fst) :
    ∃ (r prms : Dict) (rest : List SqlOp),
      df.iloc p = some r ∧
      bindParams (dictUpdate r m) updateCols = .ok prms ∧
      (update_data fail df changes changes c0).1.committedOps
        = c0.committedOps ++ rest ∧
      rest[k]? = some (SqlOp.update "inventory" prms) ∧
      dictGet prms "id" = dictGet r "id" ∧
      (∀ c ∈ updateCols, c ∉ m.map Prod.fst → dictGet prms c = dictGet r c) ∧
      (∀ c ∈ updateCols, c ∈ m.map Prod.fst → dictGet prms c = dictGet m c) := by
  obtain ⟨rows, uprms, dprms, hbuild, hsequ, hseqd, hstate⟩ :=
    update_data_ok_shape fail df changes changes c0 hp hok
  rw [ite_isEmpty] at hbuild
  obtain ⟨r, hr, hrowk⟩ := buildRows_get df changes.edited_rows rows hbuild k p m hk
  have hps := seqExcept_eq_ok _ uprms hsequ
  have hmapk : (rows.map (fun r => bindParams r updateCols))[k]?
      = some (bindParams (dictUpdate r m) updateCols) := by
    rw [List.getElem?_map, hrowk]
    rfl
  rw [hps, List.getElem?_map] at hmapk
  rcases hu : uprms[k]? with _ | prms
  · rw [hu] at hmapk; cases hmapk
  · rw [hu] at hmapk
    simp only [Option.map_some'] at hmapk
    injection hmapk with hmapk
    have hbind : bindParams (dictUpdate r m) updateCols = .ok prms := hmapk.symm
    have hnodup : updateCols.Nodup := by decide
    refine ⟨r, prms,
      uprms.map (SqlOp.update "inventory")
        ++ changes.added_rows.map
            (fun r => SqlOp.insert "inventory" (withNullDefaults r))
        ++ dprms.map (SqlOp.delete "inventory"),
      hr, hbind, by rw [hstate], ?_, ?_, ?_, ?_⟩
    · obtain ⟨hlt, _⟩ := List.getElem?_eq_some.mp hu
      rw [List.getElem?_append, if_pos (by simp; omega),
        List.getElem?_append, if_pos (by simpa using hlt),
        List.getElem?_map, hu]
      rfl
    · rw [bindParams_get (dictUpdate r m) updateCols prms hnodup hbind "id"
        (by decide)]
      exact dictGet_dictUpdate_of_not_mem m r "id" hid
    · intro c hc hcm
      rw [bindParams_get (dictUpdate r m) updateCols prms hnodup hbind c hc]
      exact dictGet_dictUpdate_of_not_mem m r c hcm
    · intro c hc hcm
      rw [bindParams_get (dictUpdate r m) updateCols prms hnodup hbind c hc]
      exact dictGet_dictUpdate_of_mem m r c hm hcm

/-- C1 witness: the spec scenario - snapshot row with units_left 5 and
reorder_point 2, edited with units_left set to 1. -/
theorem edited_overlay_update_case :
    ∃ (r prms : Dict) (rest : List SqlOp),
      sampleDF.iloc 0 = some r ∧
      bindParams (dictUpdate r [("units_left", Val.int 1)]) updateCols
        = .ok prms ∧
      (update_data noFail sampleDF editChanges editChanges
        cleanConn).1.committedOps = cleanConn.committedOps ++ rest ∧
      rest[0]? = some (SqlOp.update "inventory" prms) ∧
      dictGet prms "id" = dictGet r "id" ∧
      (∀ c ∈ updateCols, c ∉ ([("units_left", Val.int 1)] : Dict).map Prod.fst →
        dictGet prms c = dictGet r c) ∧
      (∀ c ∈ updateCols, c ∈ ([("units_left", Val.int 1)] : Dict).map Prod.fst →
        dictGet prms c = dictGet ([("units_left", Val.int 1)] : Dict) c) :=
  edited_overlay_update noFail sampleDF editChanges cleanConn 0 0
    [("units_left", Val.int 1)] rfl (by decide) (by decide) (by decide)
    (by decide)

/-! Claim C2. -/

/-- C2: each deleted entry q at slot k is treated as a position into the
snapshot (on the default RangeIndex of a freshly loaded snapshot): the row
at position q is resolved to its integer id and a successful run commits
exactly one DELETE per entry, keyed by that id, after all other
statements. -/
theorem deleted_position_delete (fail : SqlOp → Bool) (df : DataFrame)
    (changes : Changes) (c0 : ConnState) (k q : Nat)
    (hp : c0.pending = [])
    (hidx : df.index = List.range df.rows.length)
    (hok : (update_data fail df changes changes c0).2 = none)
    (hk : changes.deleted_rows[k]? = some q) :
    ∃ (r : Dict) (n : Int) (dprms : List Dict) (rest : List SqlOp),
      df.rows[q]? = some r ∧
      dictGet r "id" = some (Val.int n) ∧
      seqExcept (changes.deleted_rows.map (deleteParam df)) = .ok dprms ∧
      dprms.length = changes.deleted_rows.length ∧
      dprms[k]? = some [("id", Val.int n)] ∧
      (update_data fail df changes changes c0).1.committedOps
        = c0.committedOps ++ rest ++ dprms.map (SqlOp.delete "inventory") := by
  obtain ⟨rows, uprms, dprms, hbuild, hsequ, hseqd, hstate⟩ :=
    update_data_ok_shape fail df changes changes c0 hp hok
  have hps := seqExcept_eq_ok _ dprms hseqd
  have hlen : dprms.length = changes.deleted_rows.length := by
    have hl := congrArg List.length hps
    simp only [List.length_map] at hl
    omega
  have hmapk : (changes.deleted_rows.map (deleteParam df))[k]?
      = some (deleteParam df q) := by
    rw [List.getElem?_map, hk]
    rfl
  rw [hps, List.getElem?_map] at hmapk
  rcases hu : dprms[k]? with _ | d
  · rw [hu] at hmapk; cases hmapk
  · rw [hu] at hmapk
    simp only [Option.map_some'] at hmapk
    injection hmapk with hmapk
    obtain ⟨r, n, hr, hidv, hd⟩ := deleteParam_ok df hidx q d hmapk.symm
    subst hd
    refine ⟨r, n, dprms,
      uprms.map (SqlOp.update "inventory")
        ++ changes.added_rows.map
            (fun r => SqlOp.insert "inventory" (withNullDefaults r)),
      hr, hidv, hseqd, hlen, hu, ?_⟩
    rw [hstate]
    simp [List.append_assoc]

/-- C2 witness: the spec scenario - snapshot with ids 1 and 2, deleted
position 1 resolves to the second row and yields one DELETE keyed id 2. -/
theorem deleted_position_delete_case :
    ∃ (r : Dict) (n : Int) (dprms : List Dict) (rest : List SqlOp),
      sampleDF2.rows[1]? = some r ∧
      dictGet r "id" = some (Val.int n) ∧
      seqExcept (delChanges.deleted_rows.map (deleteParam sampleDF2))
        = .ok dprms ∧
      dprms.length = delChanges.deleted_rows.length ∧
      dprms[0]? = some [("id", Val.int n)] ∧
      (update_data noFail sampleDF2 delChanges delChanges
        cleanConn).1.committedOps
        = cleanConn.committedOps ++ rest
          ++ dprms.map (SqlOp.delete "inventory") :=
  deleted_position_delete noFail sampleDF2 delChanges cleanConn 0 1 rfl
    (by decide) (by decide) (by decide)

/-! Claim C4. -/

/-- C4: when an edited or deleted entry references a position with no row
in the snapshot, update_data raises - and when the database itself never
fails and the snapshot is well formed, the exception is precisely the
row-resolution lookup failure (IndexError from df.iloc for edited entries,
KeyError from df.loc for deleted entries), the failure the spec's taxonomy
calls ResolutionError. -/
theorem stale_position_fails (fail : SqlOp → Bool) (df : DataFrame)
    (changes : Changes) (c0 : ConnState)
    (hp : c0.pending = [])
    (hf : ∀ op, fail op = false)
    (hidx : df.index = List.range df.rows.length)
    (hwf : wellFormed df)
    (hbad : (∃ pm ∈ changes.edited_rows, df.iloc pm.1 = none) ∨
            (∃ q ∈ changes.deleted_rows, df.iloc q = none)) :
    ∃ e, (update_data fail df changes changes c0).2 = some e ∧
      (e = .indexError ∨ e = .keyError) := by
  rcases ho : (update_data fail df changes changes c0).2 with _ | e
  · exfalso
    obtain ⟨rows, uprms, dprms, hbuild, hsequ, hseqd, hstate⟩ :=
      update_data_ok_shape fail df changes changes c0 hp ho
    rw [ite_isEmpty] at hbuild
    rcases hbad with ⟨pm, hpm, hbadp⟩ | ⟨q, hq, hbadq⟩
    · obtain ⟨e', he'⟩ :=
        buildRows_err_of_bad df changes.edited_rows ⟨pm, hpm, hbadp⟩
      rw [he'] at hbuild
      cases hbuild
    · have hps := seqExcept_eq_ok _ dprms hseqd
      have hmem : deleteParam df q ∈ changes.deleted_rows.map (deleteParam df) :=
        List.mem_map_of_mem _ hq
      rw [hps, List.mem_map] at hmem
      obtain ⟨d, _, hd⟩ := hmem
      rw [deleteParam_of_bad df hidx q hbadq] at hd
      cases hd
  · exact ⟨e, rfl,
      update_data_err_classify fail df changes changes c0 hf hidx hwf e ho⟩

/-- C4 witness: editing position 5 of a one-row snapshot fails with the
row-resolution error. -/
theorem stale_position_fails_case :
    ∃ e, (update_data noFail sampleDF staleChanges staleChanges
        cleanConn).2 = some e ∧
      (e = PyErr.indexError ∨ e = PyErr.keyError) :=
  stale_position_fails noFail sampleDF staleChanges cleanConn rfl
    (fun _ => rfl) (by decide) (by decide) (by decide)

/-! Claim C6. -/

/-- C6: a successful run commits first the UPDATEs (one per edited entry,
in the diff's iteration order), then the INSERTs (one per added row, in
order), then the DELETEs (one per deleted entry, in order). -/
theorem ops_order_updates_inserts_deletes (fail : SqlOp → Bool)
    (df : DataFrame) (changes : Changes) (c0 : ConnState)
    (hp : c0.pending = [])
    (hok : (update_data fail df changes changes c0).2 = none) :
    ∃ (rows uprms dprms : List Dict),
      buildRows df changes.edited_rows = .ok rows ∧
      seqExcept (rows.map (fun r => bindParams r updateCols)) = .ok uprms ∧
      uprms.length = changes.edited_rows.length ∧
      seqExcept (changes.deleted_rows.map (deleteParam df)) = .ok dprms ∧
      dprms.length = changes.deleted_rows.length ∧
      (update_data fail df changes changes c0).1.committedOps
        = c0.committedOps
          ++ uprms.map (SqlOp.update "inventory")
          ++ changes.added_rows.map
              (fun r => SqlOp.insert "inventory" (withNullDefaults r))
          ++ dprms.map (SqlOp.delete "inventory") := by
  obtain ⟨rows, uprms, dprms, hbuild, hsequ, hseqd, hstate⟩ :=
    update_data_ok_shape fail df changes changes c0 hp hok
  rw [ite_isEmpty] at hbuild
  have hlenu : uprms.length = changes.edited_rows.length := by
    have hl := congrArg List.length (seqExcept_eq_ok _ uprms hsequ)
    simp only [List.length_map] at hl
    have hr := buildRows_length df changes.edited_rows rows hbuild
    omega
  have hlend : dprms.length = changes.deleted_rows.length := by
    have hl := congrArg List.length (seqExcept_eq_ok _ dprms hseqd)
    simp only [List.length_map] at hl
    omega
  refine ⟨rows, uprms, dprms, hbuild, hsequ, hlenu, hseqd, hlend, ?_⟩
  rw [hstate]
  simp [List.append_assoc]

/-- C6 witness: a diff with one edit, one added row and one delete commits
exactly in the order UPDATE, INSERT, DELETE. -/
theorem ops_order_updates_inserts_deletes_case :
    ∃ (rows uprms dprms : List Dict),
      buildRows sampleDF2 allChanges.edited_rows = .ok rows ∧
      seqExcept (rows.map (fun r => bindParams r updateCols)) = .ok uprms ∧
      uprms.length = allChanges.edited_rows.length ∧
      seqExcept (allChanges.deleted_rows.map (deleteParam sampleDF2))
        = .ok dprms ∧
      dprms.length = allChanges.deleted_rows.length ∧
      (update_data noFail sampleDF2 allChanges allChanges
        cleanConn).1.committedOps
        = cleanConn.committedOps
          ++ uprms.map (SqlOp.update "inventory")
          ++ allChanges.added_rows.map
              (fun r => SqlOp.insert "inventory" (withNullDefaults r))
          ++ dprms.map (SqlOp.delete "inventory") :=
  ops_order_updates_inserts_deletes noFail sampleDF2 allChanges cleanConn
    rfl (by decide)

/-! Claim C9. -/

/-- C9: every statement a successful non-empty run commits targets the
table "inventory", which is not among the tables created by the schema
bootstrap (entities, transactions, users), whose column sets are moreover
disjoint from the inventory columns. -/
theorem ops_target_absent_table (fail : SqlOp → Bool) (df : DataFrame)
    (changes : Changes) (c0 : ConnState)
    (hp : c0.pending = [])
    (hok : (update_data fail df changes changes c0).2 = none)
    (hne : ¬ (changes.edited_rows = [] ∧ changes.added_rows = [] ∧
      changes.deleted_rows = [])) :
    ∃ ops : List SqlOp,
      (update_data fail df changes changes c0).1.committedOps
        = c0.committedOps ++ ops ∧
      ops ≠ [] ∧
      (∀ op ∈ ops, op.table = "inventory") ∧
      "inventory" ∉ createdTables.map Prod.fst ∧
      createdTables.map Prod.fst = ["entities", "transactions", "users"] ∧
      (∀ t ∈ createdTables, ∀ c ∈ t.2, c ∉ insertCols) := by
  obtain ⟨rows, uprms, dprms, hbuild, hsequ, hseqd, hstate⟩ :=
    update_data_ok_shape fail df changes changes c0 hp hok
  rw [ite_isEmpty] at hbuild
  have hlenu : uprms.length = changes.edited_rows.length := by
    have hl := congrArg List.length (seqExcept_eq_ok _ uprms hsequ)
    simp only [List.length_map] at hl
    have hr := buildRows_length df changes.edited_rows rows hbuild
    omega
  have hlend : dprms.length = changes.deleted_rows.length := by
    have hl := congrArg List.length (seqExcept_eq_ok _ dprms hseqd)
    simp only [List.length_map] at hl
    omega
  refine ⟨uprms.map (SqlOp.update "inventory")
      ++ changes.added_rows.map
          (fun r => SqlOp.insert "inventory" (withNullDefaults r))
      ++ dprms.map (SqlOp.delete "inventory"),
    by rw [hstate], ?_, ?_, by decide, by decide, by decide⟩
  · intro hcontra
    rw [List.append_eq_nil, List.append_eq_nil] at hcontra
    obtain ⟨⟨hu, hi⟩, hd⟩ := hcontra
    rw [List.map_eq_nil_iff] at hu hi hd
    apply hne
    have h1 : changes.edited_rows = [] := by
      have := hlenu
      rw [hu] at this
      exact List.length_eq_zero.mp this.symm
    have h3 : changes.deleted_rows = [] := by
      have := hlend
      rw [hd] at this
      exact List.length_eq_zero.mp this.symm
    exact ⟨h1, hi, h3⟩
  · intro op hop
    rcases List.mem_append.mp hop with hop | hop
    · rcases List.mem_append.mp hop with hop | hop
      · obtain ⟨d, _, hd⟩ := List.mem_map.mp hop
        rw [← hd]; rfl
      · obtain ⟨d, _, hd⟩ := List.mem_map.mp hop
        rw [← hd]; rfl
    · obtain ⟨d, _, hd⟩ := List.mem_map.mp hop
      rw [← hd]; rfl

/-- C9 witness: a non-empty diff on the two-row snapshot commits only
statements against "inventory", a table the bootstrap never creates. -/
theorem ops_target_absent_table_case :
    ∃ ops : List SqlOp,
      (update_data noFail sampleDF2 allChanges allChanges
        cleanConn).1.committedOps
        = cleanConn.committedOps ++ ops ∧
      ops ≠ [] ∧
      (∀ op ∈ ops, op.table = "inventory") ∧
      "inventory" ∉ createdTables.map Prod.fst ∧
      createdTables.map Prod.fst = ["entities", "transactions", "users"] ∧
      (∀ t ∈ createdTables, ∀ c ∈ t.2, c ∉ insertCols) :=
  ops_target_absent_table noFail sampleDF2 allChanges cleanConn rfl
    (by decide) (by decide)
